import Mathlib

/-!
Verification of the eScriptorium → Transkribus PAGE-XML converter
(`convert_pagexml.py`).

The converter's core, `convert_page_xml`, reads the input file as plain
text and applies a fixed sequence of text substitutions (`str.replace`
and `re.sub`) to the content string; it never parses the XML.  We embed
the content pipeline as functions on `List Char`.  Each `re.sub` call of
the source uses a concrete pattern; for each of them we implement the
exact matching behaviour of that pattern (leftmost scan, greedy
quantifiers with the backtracking the concrete pattern admits, negative
lookahead) as an anchored matcher fed to a generic non-overlapping
substitution engine, mirroring `re.sub` semantics: scan left to right,
at each position replace the anchored match if there is one and resume
after it, otherwise keep the character and move one position right.
-/

namespace PageXml

/-- Content strings are lists of characters. -/
abbrev Str := List Char

/-- Python's `\s` on the ASCII range (space, tab, newline, carriage
return, vertical tab, form feed).  The source's patterns are applied to
XML text; Python's `\s` additionally matches rare non-ASCII whitespace
code points, which the modelled documents do not contain. -/
def pySpace (c : Char) : Bool :=
  c = ' ' || c = '\t' || c = '\n' || c = '\r' || c = '\x0b' || c = '\x0c'

/-- Length of the maximal `\s*` run at the head of the string. -/
def wsCount : Str → Nat
  | [] => 0
  | c :: rest => if pySpace c then wsCount rest + 1 else 0

/-- Index of the first occurrence of a character (used for the greedy
`[^X]*` idiom followed by the literal `X`, which deterministically stops
at the first `X`). -/
def idxOf (a : Char) : Str → Option Nat
  | [] => none
  | c :: rest =>
    if c = a then some 0 else
      match idxOf a rest with
      | none => none
      | some n => some (n + 1)

/-- Non-overlapping left-to-right substitution, the semantics of
`re.sub` (and of `str.replace`) for patterns that never match the empty
string: an anchored matcher returns the number of characters the match
consumes together with the replacement text.  All matchers below consume
at least one character, so fuel `s.length` always suffices. -/
def reSubFuel (find : Str → Option (Nat × Str)) : Nat → Str → Str
  | 0, s => s
  | _ + 1, [] => []
  | fuel + 1, c :: rest =>
    match find (c :: rest) with
    | some (n, repl) => repl ++ reSubFuel find fuel (rest.drop (n - 1))
    | none => c :: reSubFuel find fuel rest

/-- `re.sub(pattern, repl, s)` for the anchored matcher of `pattern`. -/
def reSub (find : Str → Option (Nat × Str)) (s : Str) : Str :=
  reSubFuel find s.length s

/-! ### The literal strings of `convert_page_xml` (lines 104–155) -/

def patt2019 : Str := "2019-07-15".toList
def repl2013 : Str := "2013-07-15".toList
def kwXmlns : Str := "xmlns".toList
def kwXsi : Str := "xsi:".toList
def tagPcGtsOpen : Str := "<PcGts".toList
def pcgtsRepl : Str :=
  "<PcGts xmlns=\"http://schema.primaresearch.org/PAGE/gts/pagecontent/2013-07-15\">".toList
def tagUnicodeOpen : Str := "<Unicode".toList
def unicodeRepl : Str := "<Unicode>[text]</Unicode>".toList
def unicodeEmptyPair : Str := "<Unicode></Unicode>".toList
def unicodeGt : Str := "<Unicode>".toList
def unicodeClose : Str := "</Unicode>".toList
def tagTextRegionOpen : Str := "<TextRegion".toList
def tagTextLineOpen : Str := "<TextLine".toList
def tagCoordsOpen : Str := "<Coords".toList
def tagBaselineOpen : Str := "<Baseline".toList
def trCoordsInsert : Str := "\n<Coords points=\"0,0 100,0 100,100 0,100\"/>".toList
def tlCoordsInsert : Str := "\n<Coords points=\"0,0 100,0 100,20 0,20\"/>".toList
def blInsert : Str := "\n<Baseline points=\"0,10 100,10\"/>".toList
def slashGt : Str := "/>".toList
def gtOnly : Str := ">".toList
def gtLt : Str := "><".toList

/-! ### Anchored matchers, one per substitution of the source -/

/-- Line 104: `content.replace('2019-07-15', '2013-07-15')`. -/
def find2019 (s : Str) : Option (Nat × Str) :=
  if patt2019.isPrefixOf s then some (patt2019.length, repl2013) else none

/-- Line 108: `re.sub(r'\s*xmlns(?::[^=]*)?="[^"]*"', '', content)`.
`\s*` must consume the whole whitespace run (the following literal is
not whitespace); with the colon branch, `[^=]*` stops at the first `=`,
which must be followed by `"`; `[^"]*"` stops at the next `"`. -/
def findXmlns (s : Str) : Option (Nat × Str) :=
  let w := wsCount s
  let t := s.drop w
  if kwXmlns.isPrefixOf t then
    match t.drop 5 with
    | ':' :: v =>
      (match idxOf '=' v with
       | some i =>
         (match v.drop (i + 1) with
          | '"' :: rest =>
            (match idxOf '"' rest with
             | some j => some (w + 9 + i + j, ([] : Str))
             | none => none)
          | _ => none)
       | none => none)
    | '=' :: '"' :: rest =>
      (match idxOf '"' rest with
       | some j => some (w + 8 + j, ([] : Str))
       | none => none)
    | _ => none
  else none

/-- Line 109: `re.sub(r'\s*xsi:[^=]*="[^"]*"', '', content)`. -/
def findXsi (s : Str) : Option (Nat × Str) :=
  let w := wsCount s
  let t := s.drop w
  if kwXsi.isPrefixOf t then
    match idxOf '=' (t.drop 4) with
    | some i =>
      (match t.drop (4 + i + 1) with
       | '"' :: rest =>
         (match idxOf '"' rest with
          | some j => some (w + 7 + i + j, ([] : Str))
          | none => none)
       | _ => none)
    | none => none
  else none

/-- Lines 113–117: `re.sub(r'<PcGts([^>]*)>', '<PcGts xmlns="…2013-07-15">', content)`.
The replacement discards the captured group. -/
def findPcGts (s : Str) : Option (Nat × Str) :=
  if tagPcGtsOpen.isPrefixOf s then
    match idxOf '>' (s.drop 6) with
    | some i => some (7 + i, pcgtsRepl)
    | none => none
  else none

/-- Line 122: `re.sub(r'<Unicode\s*/>', '<Unicode>[text]</Unicode>', content)`. -/
def findUnicodeSelfClose (s : Str) : Option (Nat × Str) :=
  if tagUnicodeOpen.isPrefixOf s then
    let w := wsCount (s.drop 8)
    if slashGt.isPrefixOf (s.drop (8 + w)) then some (10 + w, unicodeRepl) else none
  else none

/-- Line 123: `re.sub(r'<Unicode></Unicode>', '<Unicode>[text]</Unicode>', content)`. -/
def findUnicodeEmptyPair (s : Str) : Option (Nat × Str) :=
  if unicodeEmptyPair.isPrefixOf s then some (19, unicodeRepl) else none

/-- Line 124: `re.sub(r'<Unicode>\s*</Unicode>', '<Unicode>[text]</Unicode>', content)`. -/
def findUnicodeWsStar (s : Str) : Option (Nat × Str) :=
  if unicodeGt.isPrefixOf s then
    let w := wsCount (s.drop 9)
    if unicodeClose.isPrefixOf (s.drop (9 + w)) then some (19 + w, unicodeRepl) else none
  else none

/-- Line 125: `re.sub(r'<Unicode>\s+</Unicode>', '<Unicode>[text]</Unicode>', content)`. -/
def findUnicodeWsPlus (s : Str) : Option (Nat × Str) :=
  if unicodeGt.isPrefixOf s then
    let w := wsCount (s.drop 9)
    if w = 0 then none
    else if unicodeClose.isPrefixOf (s.drop (9 + w)) then some (19 + w, unicodeRepl) else none
  else none

/-- Lines 132–136:
`re.sub(r'(<TextRegion[^>]*>)(?!\s*<Coords)', r'\1\n<Coords points="0,0 100,0 100,100 0,100"/>', content)`.
The negative lookahead `(?!\s*<Coords)` fails the match exactly when the
whole whitespace run after `>` is followed by the literal `<Coords`. -/
def findTextRegion (s : Str) : Option (Nat × Str) :=
  if tagTextRegionOpen.isPrefixOf s then
    match idxOf '>' (s.drop 11) with
    | some i =>
      let len := 12 + i
      let after := s.drop len
      if tagCoordsOpen.isPrefixOf (after.drop (wsCount after)) then none
      else some (len, s.take len ++ trCoordsInsert)
    | none => none
  else none

/-- Lines 139–143: the same insertion for `<TextLine`, with the
line-specific placeholder points. -/
def findTextLine (s : Str) : Option (Nat × Str) :=
  if tagTextLineOpen.isPrefixOf s then
    match idxOf '>' (s.drop 9) with
    | some i =>
      let len := 10 + i
      let after := s.drop len
      if tagCoordsOpen.isPrefixOf (after.drop (wsCount after)) then none
      else some (len, s.take len ++ tlCoordsInsert)
    | none => none
  else none

/-- Lines 147–151:
`re.sub(r'(<TextLine[^>]*>\s*<Coords[^>]*/>)(?!\s*<Baseline)', r'\1\n<Baseline points="0,10 100,10"/>', content)`.
`<Coords[^>]*/>` requires the first `>` after `<Coords` to be preceded
by `/` (a self-closing Coords tag). -/
def findBaseline (s : Str) : Option (Nat × Str) :=
  if tagTextLineOpen.isPrefixOf s then
    match idxOf '>' (s.drop 9) with
    | some i =>
      let p1 := 10 + i
      let w := wsCount (s.drop p1)
      let t := s.drop (p1 + w)
      if tagCoordsOpen.isPrefixOf t then
        match idxOf '>' (t.drop 7) with
        | some d =>
          if d = 0 then none
          else if (t.drop 7).get? (d - 1) = some '/' then
            let len := p1 + w + 8 + d
            let after := s.drop len
            if tagBaselineOpen.isPrefixOf (after.drop (wsCount after)) then none
            else some (len, s.take len ++ blInsert)
          else none
        | none => none
      else none
    | none => none
  else none

/-- Line 154: `re.sub(r'\s+>', '>', content)`.  `\s+` must consume the
whole whitespace run (the following `>` is not whitespace), so a match
is a nonempty whitespace run whose first non-whitespace successor is `>`. -/
def findWsGt (s : Str) : Option (Nat × Str) :=
  if wsCount s = 0 then none
  else
    match s.drop (wsCount s) with
    | '>' :: _ => some (wsCount s + 1, gtOnly)
    | _ => none

/-- Line 155: `re.sub(r'>\s+<', '><', content)`. -/
def findGtWsLt (s : Str) : Option (Nat × Str) :=
  match s with
  | '>' :: rest =>
    if wsCount rest = 0 then none
    else
      match rest.drop (wsCount rest) with
      | '<' :: _ => some (wsCount rest + 2, gtLt)
      | _ => none
  | _ => none

/-! ### The pipeline of `convert_page_xml`, lines 104–155 -/

def replace2019 (s : Str) : Str := reSub find2019 s
def stripXmlnsDecls (s : Str) : Str := reSub findXmlns s
def stripXsiAttrs (s : Str) : Str := reSub findXsi s
def rebuildPcGts (s : Str) : Str := reSub findPcGts s
def fixUnicodeSelfClose (s : Str) : Str := reSub findUnicodeSelfClose s
def fixUnicodeEmptyPair (s : Str) : Str := reSub findUnicodeEmptyPair s
def fixUnicodeWsStar (s : Str) : Str := reSub findUnicodeWsStar s
def fixUnicodeWsPlus (s : Str) : Str := reSub findUnicodeWsPlus s
def addRegionCoords (s : Str) : Str := reSub findTextRegion s
def addLineCoords (s : Str) : Str := reSub findTextLine s
def addBaselines (s : Str) : Str := reSub findBaseline s
def cleanWsGt (s : Str) : Str := reSub findWsGt s
def cleanGtWsLt (s : Str) : Str := reSub findGtWsLt s

/-- The full content transformation performed inside the `try` block of
`convert_page_xml` (lines 104–155), in source order. -/
def convertContent (s : Str) : Str :=
  cleanGtWsLt (cleanWsGt (addBaselines (addLineCoords (addRegionCoords
    (fixUnicodeWsPlus (fixUnicodeWsStar (fixUnicodeEmptyPair (fixUnicodeSelfClose
      (rebuildPcGts (stripXsiAttrs (stripXmlnsDecls (replace2019 s))))))))))))

/-- The outcome of opening, reading and decoding the input file in
`convert_page_xml` (line 96–97, `open(..., encoding='utf-8')` plus
`f.read()`): `FileNotFoundError` (caught at line 164), `PermissionError`
(caught at line 167), any other read-time exception — e.g. a
`UnicodeDecodeError` on non-UTF-8 input, caught by the generic `except`
at line 170 — or the successfully decoded content. -/
inductive ReadOutcome where
  | fileNotFound : ReadOutcome
  | permissionDenied : ReadOutcome
  | otherError : ReadOutcome
  | ok : Str → ReadOutcome

/-- The outcome of opening and writing the output file (lines 158–159),
which still runs inside the `try`: an exception there (for example
`IsADirectoryError` or a write-time `PermissionError`) is caught by the
generic `except` at line 170, otherwise the write completes. -/
inductive WriteOutcome where
  | error : WriteOutcome
  | ok : WriteOutcome

/-- `convert_page_xml` (lines 61–172): the returned success flag and the
content written to the output file, as a function of how the two I/O
steps go.  On any caught exception the function prints a message and
returns `False`; no completed output is reported (`none` — on a failed
write the file may have been partially created, which this model does
not track).  The text transformation between read and write consists of
total string operations and raises nothing. -/
def convert_page_xml : ReadOutcome → WriteOutcome → Bool × Option Str
  | ReadOutcome.fileNotFound, _ => (false, none)
  | ReadOutcome.permissionDenied, _ => (false, none)
  | ReadOutcome.otherError, _ => (false, none)
  | ReadOutcome.ok _, WriteOutcome.error => (false, none)
  | ReadOutcome.ok content, WriteOutcome.ok => (true, some (convertContent content))

/-! ### Observations on output strings -/

/-- `p` occurs as a contiguous substring of `s`. -/
def containsSub (p : Str) : Str → Bool
  | [] => p.isEmpty
  | c :: rest => p.isPrefixOf (c :: rest) || containsSub p rest

/-- Number of positions at which `p` occurs in `s` (occurrences may
overlap; for the tag literals used below they cannot). -/
def countSub (p : Str) : Str → Nat
  | [] => if p.isEmpty then 1 else 0
  | c :: rest => (if p.isPrefixOf (c :: rest) then 1 else 0) + countSub p rest

/-- Some position of `s` carries an anchored match of `find`. -/
def hasMatch (find : Str → Option (Nat × Str)) : Str → Bool
  | [] => false
  | c :: rest => (find (c :: rest)).isSome || hasMatch find rest

/-- The fixed placeholder text of the converter. -/
def placeholderText : Str := "[text]".toList

/-! ### Concrete documents used to settle the claims -/

/-- Not well-formed markup: an unterminated tag. -/
def inMalformed : Str := "<a".toList

/-- A well-formed `TextLine` whose pre-existing `Coords` child uses
open/close syntax and that has no `Baseline`. -/
def inLineNoBaseline : Str :=
  "<TextLine id=\"l2\"><Coords points=\"3,3 4,4\"></Coords>y</TextLine>".toList

/-- A well-formed `TextLine` with an open/close `Coords` child, used for
the Baseline-independence claim. -/
def inLineCoordsFirst : Str :=
  "<TextLine id=\"l1\"><Coords points=\"1,1 2,2\"></Coords>x</TextLine>".toList

/-- A well-formed `TextRegion` whose pre-existing `Coords` child is
preceded by a comment. -/
def inRegionCommentCoords : Str :=
  "<TextRegion id=\"r\"><!-- note --><Coords points=\"1,1 2,2\"/></TextRegion>".toList

def outRegionCommentCoords : Str :=
  "<TextRegion id=\"r\"><Coords points=\"0,0 100,0 100,100 0,100\"/><!-- note --><Coords points=\"1,1 2,2\"/></TextRegion>".toList

/-- A document whose root element is namespace-prefixed (`pc:PcGts`)
and bound to the source namespace. -/
def inPrefixedRoot : Str :=
  "<pc:PcGts xmlns:pc=\"http://schema.primaresearch.org/PAGE/gts/pagecontent/2019-07-15\"></pc:PcGts>".toList

def outPrefixedRoot : Str := "<pc:PcGts></pc:PcGts>".toList

/-- A `TextRegion` carrying a non-namespace attribute whose value
contains the schema-version token. -/
def inRegionDatedAttr : Str :=
  "<TextRegion id=\"r\" note=\"printed 2019-07-15\"><Coords points=\"1,1 2,2\"/></TextRegion>".toList

def outRegionDatedAttr : Str :=
  "<TextRegion id=\"r\" note=\"printed 2013-07-15\"><Coords points=\"1,1 2,2\"/></TextRegion>".toList

/-- An empty namespace-prefixed `Unicode` element. -/
def inPrefixedUnicode : Str := "<pc:Unicode></pc:Unicode>".toList

/-- A self-closing `TextRegion` with no children. -/
def inSelfClosingRegion : Str := "<TextRegion id=\"r1\"/>".toList

def outSelfClosingRegion : Str :=
  "<TextRegion id=\"r1\"/><Coords points=\"0,0 100,0 100,100 0,100\"/>".toList

/-- A document with the version token in an unrelated attribute value
and inside `Unicode` text content. -/
def inDatedEverywhere : Str :=
  "<Page note=\"made 2019-07-15\"><Unicode>seen 2019-07-15</Unicode></Page>".toList

def outDatedEverywhere : Str :=
  "<Page note=\"made 2013-07-15\"><Unicode>seen 2013-07-15</Unicode></Page>".toList

end PageXml

namespace PageXml

/-- Claim C1, counterexample: on input that is not well-formed markup
(an unterminated tag), when both I/O steps go through the conversion
succeeds and writes the input back out unchanged instead of failing with
a `ParseError`; the code never parses the document, so malformedness is
never detected. -/
theorem claim1_counterexample_malformed_succeeds :
    convert_page_xml (ReadOutcome.ok inMalformed) WriteOutcome.ok
      = (true, some inMalformed) := by
  decide

/-- Claim C1 as amended: no `ParseError` exists and well-formedness of
the markup plays no role in the outcome.  Whenever the input file is
read and decoded and the output file is written without an I/O
exception, the conversion succeeds and writes the transformed content,
for every content string, well-formed markup or not; and the call
succeeds exactly when both I/O steps do — failure comes only from the
`except` branches (file not found, permission denied, another read-time
exception such as undecodable non-UTF-8 input, or a write-time
exception), never from the content transformation itself. -/
theorem claim1_errors_only_from_io :
    (∀ content : Str,
      convert_page_xml (ReadOutcome.ok content) WriteOutcome.ok
        = (true, some (convertContent content))) ∧
    (∀ (r : ReadOutcome) (w : WriteOutcome),
      (convert_page_xml r w).1 = true ↔
        ((∃ content, r = ReadOutcome.ok content) ∧ w = WriteOutcome.ok)) := by
  constructor
  · intro content
    rfl
  · intro r w
    cases r <;> cases w <;> simp [convert_page_xml]

/-- Claim C2, failing run: a well-formed `TextLine` whose `Coords`
child is written with open/close syntax passes through the conversion
unchanged — the Baseline regex (line 148) requires a self-closing
`<Coords…/>` directly after the open tag — so the output still contains
a `TextLine` lacking a `Baseline` child, and the claimed count is not 0. -/
theorem claim2_textline_without_baseline_survives :
    convertContent inLineNoBaseline = inLineNoBaseline ∧
    containsSub tagBaselineOpen (convertContent inLineNoBaseline) = false := by
  constructor <;> decide

/-- Claim C3, failing run: a `TextRegion` whose pre-existing `Coords`
child is preceded by a comment receives a second `Coords` — the
insertion check (line 133) only looks at the text immediately following
the open tag, so it does not detect the pre-existing element and
double-inserts. -/
theorem claim3_double_coords_inserted :
    convertContent inRegionCommentCoords = outRegionCommentCoords ∧
    countSub tagCoordsOpen (convertContent inRegionCommentCoords) = 2 := by
  constructor <;> decide

/-- Claim C4, failing run: for a namespace-prefixed root element
(`pc:PcGts`), the declaration-stripping regex (line 108) removes the
`xmlns:pc` declaration but the rebuild regex (line 114) matches only the
literal `<PcGts`, so the output root carries no namespace declaration at
all instead of exactly one canonical declaration. -/
theorem claim4_prefixed_root_loses_namespace :
    convertContent inPrefixedRoot = outPrefixedRoot ∧
    containsSub kwXmlns (convertContent inPrefixedRoot) = false := by
  constructor <;> decide

/-- Claim C5, failing run: the global text replacement of line 104
rewrites the version token inside a non-namespace attribute (`note`) of
a `TextRegion`, so the attributes of counted elements are not preserved. -/
theorem claim5_unrelated_attribute_rewritten :
    convertContent inRegionDatedAttr = outRegionDatedAttr := by
  decide

/-- Claim C6, failing run: an empty namespace-prefixed `Unicode`
element (`pc:Unicode`) is not filled with the placeholder, because the
patterns of lines 122–125 match only the literal unprefixed
`<Unicode…>` forms. -/
theorem claim6_prefixed_empty_unicode_not_filled :
    convertContent inPrefixedUnicode = inPrefixedUnicode ∧
    containsSub placeholderText (convertContent inPrefixedUnicode) = false := by
  constructor <;> decide

/-- Claim C7, failing run: a `TextLine` with a pre-existing open/close
`Coords` child receives no `Baseline`, although `Baseline` is absent —
the insertion (line 148) fires only when a self-closing `<Coords…/>`
immediately follows the open tag, so it is not independent of how the
`Coords` child is written. -/
theorem claim7_baseline_not_inserted_with_open_close_coords :
    convertContent inLineCoordsFirst = inLineCoordsFirst ∧
    containsSub tagBaselineOpen (convertContent inLineCoordsFirst) = false := by
  constructor <;> decide

/-! ### Step 1 replaces every occurrence of the version token -/

theorem patt2019_eq :
    patt2019 = ['2', '0', '1', '9', '-', '0', '7', '-', '1', '5'] := by decide

theorem repl2013_eq :
    repl2013 = ['2', '0', '1', '3', '-', '0', '7', '-', '1', '5'] := by decide

theorem patt2019_length : patt2019.length = 10 := by decide

theorem find2019_eq_some {s : Str} {n : Nat} {r : Str}
    (h : find2019 s = some (n, r)) :
    patt2019.isPrefixOf s = true ∧ n = 10 ∧ r = repl2013 := by
  unfold find2019 at h
  split at h
  · rename_i hp
    cases h
    exact ⟨hp, patt2019_length, rfl⟩
  · cases h

theorem find2019_ne_none {s : Str} (h : patt2019.isPrefixOf s = true) :
    find2019 s = some (10, repl2013) := by
  unfold find2019
  rw [if_pos h, patt2019_length]

/-- The pattern does not begin anywhere inside the replacement text: no
nonempty suffix of `2013-07-15` is a prefix of `2019-07-15` and vice
versa, so an occurrence of the pattern can never straddle or start in
replaced text. -/
theorem patt_not_prefixOf_repl_append (W : Str) :
    patt2019.isPrefixOf (repl2013 ++ W) = false := by
  rw [patt2019_eq, repl2013_eq]
  simp [List.isPrefixOf_cons₂, List.cons_append]

theorem dropPatt_not_prefixOf_repl_append {k : Nat} (W : Str)
    (hk1 : 1 ≤ k) (hk2 : k ≤ 9) :
    (patt2019.drop k).isPrefixOf (repl2013 ++ W) = false := by
  interval_cases k <;>
    (rw [patt2019_eq, repl2013_eq];
     simp [List.isPrefixOf_cons₂, List.cons_append])

theorem containsSub_repl_append (W : Str) :
    containsSub patt2019 (repl2013 ++ W) = containsSub patt2019 W := by
  rw [repl2013_eq]
  simp only [List.cons_append, List.nil_append]
  simp [containsSub, patt2019_eq, List.isPrefixOf_cons₂]

/-- Core invariant of the scan of line 104: the processed text contains
no occurrence of the pattern, and any suffix of the pattern that is a
prefix of the processed text was already a prefix of the unprocessed
text (processing creates no new pattern fragments at the front). -/
theorem replace2019_aux :
    ∀ fuel s, s.length ≤ fuel →
      containsSub patt2019 (reSubFuel find2019 fuel s) = false ∧
      (∀ k, (patt2019.drop k).isPrefixOf (reSubFuel find2019 fuel s) = true →
            (patt2019.drop k).isPrefixOf s = true) := by
  intro fuel
  induction fuel with
  | zero =>
    intro s hs
    have hnil : s = [] := List.eq_nil_of_length_eq_zero (Nat.le_zero.mp hs)
    subst hnil
    exact ⟨by decide, fun k h => h⟩
  | succ fuel ih =>
    intro s hs
    cases s with
    | nil =>
      refine ⟨?_, fun k h => h⟩
      show containsSub patt2019 [] = false
      decide
    | cons c rest =>
      have hlen : rest.length ≤ fuel := by
        simp only [List.length_cons] at hs
        omega
      cases hf : find2019 (c :: rest) with
      | none =>
        have hout : reSubFuel find2019 (fuel + 1) (c :: rest)
            = c :: reSubFuel find2019 fuel rest := by
          simp [reSubFuel, hf]
        obtain ⟨ih1, ih2⟩ := ih rest hlen
        have hstep : ∀ k, (patt2019.drop k).isPrefixOf
              (c :: reSubFuel find2019 fuel rest) = true →
            (patt2019.drop k).isPrefixOf (c :: rest) = true := by
          intro k hk
          rcases Nat.lt_or_ge k 10 with hlt | hge
          · have hdrop := List.drop_eq_getElem_cons
              (l := patt2019) (by rw [patt2019_length]; exact hlt)
            rw [hdrop] at hk ⊢
            rw [List.isPrefixOf_cons₂, Bool.and_eq_true] at hk ⊢
            exact ⟨hk.1, ih2 (k + 1) hk.2⟩
          · rw [List.drop_eq_nil_of_le (by rw [patt2019_length]; omega)] at hk ⊢
            exact hk
        refine ⟨?_, by rw [hout]; exact hstep⟩
        rw [hout]
        have hnotpre :
            patt2019.isPrefixOf (c :: reSubFuel find2019 fuel rest) = false := by
          cases hb : patt2019.isPrefixOf (c :: reSubFuel find2019 fuel rest) with
          | false => rfl
          | true =>
            exfalso
            have hb' := hstep 0 (by rw [List.drop_zero]; exact hb)
            rw [List.drop_zero] at hb'
            rw [find2019_ne_none hb'] at hf
            cases hf
        simp [containsSub, hnotpre, ih1]
      | some val =>
        obtain ⟨n, r⟩ := val
        obtain ⟨hpre, hn, hr⟩ := find2019_eq_some hf
        subst hn
        subst hr
        have hout : reSubFuel find2019 (fuel + 1) (c :: rest)
            = repl2013 ++ reSubFuel find2019 fuel (rest.drop 9) := by
          simp [reSubFuel, hf]
        have hlen9 : (rest.drop 9).length ≤ fuel := by
          rw [List.length_drop]
          omega
        obtain ⟨ih1, ih2⟩ := ih (rest.drop 9) hlen9
        refine ⟨by rw [hout, containsSub_repl_append]; exact ih1, ?_⟩
        intro k hk
        rw [hout] at hk
        rcases Nat.lt_or_ge k 10 with hlt | hge
        · rcases Nat.eq_zero_or_pos k with h0 | h1
          · subst h0
            rw [List.drop_zero] at hk
            rw [patt_not_prefixOf_repl_append] at hk
            cases hk
          · rw [dropPatt_not_prefixOf_repl_append _ h1 (by omega)] at hk
            cases hk
        · rw [List.drop_eq_nil_of_le (by rw [patt2019_length]; omega)]
          simp

/-- Claim C9: line 104 is `content.replace('2019-07-15', '2013-07-15')`,
a plain text replacement with no anchor to the namespace declaration:
after it, no occurrence of `2019-07-15` remains anywhere in the content
(first conjunct, for every input), and on a document carrying the token
inside an unrelated attribute value and inside `Unicode` text content
the full transformation rewrites both occurrences in place (second
conjunct). -/
theorem claim9_version_token_replaced_everywhere :
    (∀ s : Str, containsSub patt2019 (replace2019 s) = false) ∧
    convertContent inDatedEverywhere = outDatedEverywhere := by
  constructor
  · intro s
    exact (replace2019_aux s.length s le_rfl).1
  · decide

/-! ### The two cleanup passes of lines 154–155 -/

theorem pySpace_gt : pySpace '>' = false := by decide

theorem pySpace_lt : pySpace '<' = false := by decide

theorem wsCount_cons_of_space {c : Char} (h : pySpace c = true) (l : Str) :
    wsCount (c :: l) = wsCount l + 1 := by simp [wsCount, h]

theorem wsCount_cons_of_not_space {c : Char} (h : pySpace c = false) (l : Str) :
    wsCount (c :: l) = 0 := by simp [wsCount, h]

theorem dropWs_cons_of_space {c : Char} (h : pySpace c = true) (l : Str) :
    (c :: l).drop (wsCount (c :: l)) = l.drop (wsCount l) := by
  rw [wsCount_cons_of_space h, List.drop_succ_cons]

theorem findWsGt_eq_none_of_wsZero {s : Str} (h : wsCount s = 0) :
    findWsGt s = none := by
  unfold findWsGt
  rw [if_pos h]

theorem findWsGt_eq_none_of_head {s : Str}
    (h : (s.drop (wsCount s)).head? = some '>' → False) :
    findWsGt s = none := by
  unfold findWsGt
  split
  · rfl
  · split
    · rename_i heq
      exact absurd (by rw [heq]; rfl) h
    · rfl

theorem findWsGt_some {s : Str} {n : Nat} {r : Str}
    (h : findWsGt s = some (n, r)) :
    1 ≤ wsCount s ∧ n = wsCount s + 1 ∧ r = gtOnly ∧
      (s.drop (wsCount s)).head? = some '>' := by
  unfold findWsGt at h
  split at h
  · cases h
  · rename_i h0
    split at h
    · rename_i heq
      cases h
      exact ⟨by omega, rfl, rfl, by rw [heq]; rfl⟩
    · cases h

theorem findWsGt_none_head {s : Str} (h : findWsGt s = none)
    (h1 : 1 ≤ wsCount s) :
    (s.drop (wsCount s)).head? = some '>' → False := by
  intro hhd
  unfold findWsGt at h
  rw [if_neg (by omega)] at h
  cases hd : s.drop (wsCount s) with
  | nil => rw [hd] at hhd; cases hhd
  | cons d t =>
    rw [hd] at hhd h
    have : d = '>' := by
      have := Option.some.inj hhd
      simpa using this
    subst this
    cases h

/-- The scan of line 154 (`\s+>` → `>`) does not create a new
whitespace-then-`>` situation at the front: if the whole leading
whitespace run of the input is not followed by `>`, the same holds of
the output. -/
theorem cleanWsGt_head_aux :
    ∀ fuel s, s.length ≤ fuel →
      ((s.drop (wsCount s)).head? = some '>' → False) →
      (((reSubFuel findWsGt fuel s).drop
          (wsCount (reSubFuel findWsGt fuel s))).head? = some '>' → False) := by
  intro fuel
  induction fuel with
  | zero =>
    intro s _ h
    exact h
  | succ fuel ih =>
    intro s hs h
    cases s with
    | nil => intro hhd; cases hhd
    | cons c rest =>
      have hlen : rest.length ≤ fuel := by
        simp only [List.length_cons] at hs; omega
      cases hf : findWsGt (c :: rest) with
      | none =>
        have hout : reSubFuel findWsGt (fuel + 1) (c :: rest)
            = c :: reSubFuel findWsGt fuel rest := by
          simp [reSubFuel, hf]
        rw [hout]
        cases hc : pySpace c with
        | false =>
          rw [wsCount_cons_of_not_space hc, List.drop_zero]
          intro hhd
          apply h
          rw [wsCount_cons_of_not_space hc, List.drop_zero]
          simpa using hhd
        | true =>
          rw [dropWs_cons_of_space hc]
          apply ih rest hlen
          intro hhd
          apply h
          rw [dropWs_cons_of_space hc]
          exact hhd
      | some val =>
        exfalso
        obtain ⟨n, r⟩ := val
        obtain ⟨_, _, _, hhd⟩ := findWsGt_some hf
        exact h hhd

/-- After the pass of line 154 no position of the output matches
`\s+>` any more. -/
theorem cleanWsGt_aux :
    ∀ fuel s, s.length ≤ fuel →
      hasMatch findWsGt (reSubFuel findWsGt fuel s) = false := by
  intro fuel
  induction fuel with
  | zero =>
    intro s hs
    have hnil : s = [] := List.eq_nil_of_length_eq_zero (Nat.le_zero.mp hs)
    subst hnil
    rfl
  | succ fuel ih =>
    intro s hs
    cases s with
    | nil => rfl
    | cons c rest =>
      have hlen : rest.length ≤ fuel := by
        simp only [List.length_cons] at hs; omega
      cases hf : findWsGt (c :: rest) with
      | none =>
        have hout : reSubFuel findWsGt (fuel + 1) (c :: rest)
            = c :: reSubFuel findWsGt fuel rest := by
          simp [reSubFuel, hf]
        rw [hout]
        have hfront : findWsGt (c :: reSubFuel findWsGt fuel rest) = none := by
          cases hc : pySpace c with
          | false =>
            exact findWsGt_eq_none_of_wsZero (wsCount_cons_of_not_space hc _)
          | true =>
            apply findWsGt_eq_none_of_head
            rw [dropWs_cons_of_space hc]
            apply cleanWsGt_head_aux fuel rest hlen
            intro hhd
            apply findWsGt_none_head hf
              (by rw [wsCount_cons_of_space hc]; omega)
            rw [dropWs_cons_of_space hc]
            exact hhd
        simp [hasMatch, hfront, ih rest hlen]
      | some val =>
        obtain ⟨n, r⟩ := val
        obtain ⟨hw, hn, hr, _⟩ := findWsGt_some hf
        subst hn
        subst hr
        have hout : reSubFuel findWsGt (fuel + 1) (c :: rest)
            = '>' :: reSubFuel findWsGt fuel (rest.drop (wsCount (c :: rest))) := by
          simp [reSubFuel, hf, gtOnly]
        rw [hout]
        have hlend : (rest.drop (wsCount (c :: rest))).length ≤ fuel := by
          rw [List.length_drop]
          simp only [List.length_cons] at hs
          omega
        have hfront :
            findWsGt ('>' :: reSubFuel findWsGt fuel
              (rest.drop (wsCount (c :: rest)))) = none :=
          findWsGt_eq_none_of_wsZero (wsCount_cons_of_not_space pySpace_gt _)
        simp [hasMatch, hfront, ih _ hlend]

theorem findGtWsLt_eq_none_of_not_gt {c : Char} (hc : c = '>' → False)
    (l : Str) : findGtWsLt (c :: l) = none := by
  unfold findGtWsLt
  split
  · rename_i heq
    exact absurd (List.cons.inj heq).1 hc
  · rfl

theorem findGtWsLt_gt_eq_none_of_wsZero {l : Str} (h : wsCount l = 0) :
    findGtWsLt ('>' :: l) = none := by
  unfold findGtWsLt
  split
  · rename_i rest heq
    obtain ⟨-, hrest⟩ := List.cons.inj heq
    subst hrest
    rw [if_pos h]
  · rfl

theorem findGtWsLt_gt_eq_none_of_head {l : Str}
    (h : (l.drop (wsCount l)).head? = some '<' → False) :
    findGtWsLt ('>' :: l) = none := by
  unfold findGtWsLt
  split
  · rename_i rest heq
    obtain ⟨-, hrest⟩ := List.cons.inj heq
    subst hrest
    by_cases h0 : wsCount l = 0
    · rw [if_pos h0]
    · rw [if_neg h0]
      split
      · rename_i heq2
        exact absurd (by rw [heq2]; rfl) h
      · rfl
  · rfl

theorem findGtWsLt_some {s : Str} {n : Nat} {r : Str}
    (h : findGtWsLt s = some (n, r)) :
    ∃ rest, s = '>' :: rest ∧ 1 ≤ wsCount rest ∧
      n = wsCount rest + 2 ∧ r = gtLt ∧
      (rest.drop (wsCount rest)).head? = some '<' := by
  unfold findGtWsLt at h
  split at h
  · rename_i rest
    refine ⟨rest, rfl, ?_⟩
    by_cases h0 : wsCount rest = 0
    · rw [if_pos h0] at h
      cases h
    · rw [if_neg h0] at h
      split at h
      · rename_i heq2
        cases h
        exact ⟨by omega, rfl, rfl, by rw [heq2]; rfl⟩
      · cases h
  · cases h

theorem findGtWsLt_gt_none {l : Str} (h : findGtWsLt ('>' :: l) = none) :
    wsCount l = 0 ∨ ((l.drop (wsCount l)).head? = some '<' → False) := by
  by_cases h0 : wsCount l = 0
  · exact Or.inl h0
  · right
    intro hhd
    unfold findGtWsLt at h
    split at h
    · rename_i rest heq
      obtain ⟨-, hrest⟩ := List.cons.inj heq
      subst hrest
      rw [if_neg h0] at h
      cases hd : l.drop (wsCount l) with
      | nil => rw [hd] at hhd; cases hhd
      | cons d t =>
        rw [hd] at hhd h
        have hdlt : d = '<' := by simpa using Option.some.inj hhd
        subst hdlt
        cases h
    · rename_i hno
      exact hno l rfl

/-- The scan of line 155 never changes the first character. -/
theorem cleanGtWsLt_headq :
    ∀ fuel s, (reSubFuel findGtWsLt fuel s).head? = s.head? := by
  intro fuel
  cases fuel with
  | zero => intro s; rfl
  | succ fuel =>
    intro s
    cases s with
    | nil => rfl
    | cons c rest =>
      cases hf : findGtWsLt (c :: rest) with
      | none => simp [reSubFuel, hf]
      | some val =>
        obtain ⟨n, r⟩ := val
        obtain ⟨rest', heq, _, _, hr, _⟩ := findGtWsLt_some hf
        have hc : c = '>' := (List.cons.inj heq).1
        subst hr
        subst hc
        simp [reSubFuel, hf, gtLt]

theorem cleanGtWsLt_wsZero :
    ∀ fuel s, wsCount s = 0 → wsCount (reSubFuel findGtWsLt fuel s) = 0 := by
  intro fuel s h
  cases s with
  | nil =>
    cases fuel <;> simp [reSubFuel, wsCount]
  | cons c rest =>
    have hc : pySpace c = false := by
      cases hb : pySpace c with
      | false => rfl
      | true => rw [wsCount_cons_of_space hb] at h; cases h
    have hq := cleanGtWsLt_headq fuel (c :: rest)
    cases hout : reSubFuel findGtWsLt fuel (c :: rest) with
    | nil => rfl
    | cons d t =>
      rw [hout] at hq
      have hd : d = c := by simpa using Option.some.inj hq
      subst hd
      exact wsCount_cons_of_not_space hc _

/-- The scan of line 155 does not create the character `ch` at the
position right after the leading whitespace run. -/
theorem cleanGtWsLt_headAfter_aux :
    ∀ fuel s (ch : Char), s.length ≤ fuel →
      ((s.drop (wsCount s)).head? = some ch → False) →
      (((reSubFuel findGtWsLt fuel s).drop
          (wsCount (reSubFuel findGtWsLt fuel s))).head? = some ch → False) := by
  intro fuel
  induction fuel with
  | zero =>
    intro s ch _ h
    exact h
  | succ fuel ih =>
    intro s ch hs h
    cases s with
    | nil => intro hhd; cases hhd
    | cons c rest =>
      have hlen : rest.length ≤ fuel := by
        simp only [List.length_cons] at hs; omega
      cases hf : findGtWsLt (c :: rest) with
      | none =>
        have hout : reSubFuel findGtWsLt (fuel + 1) (c :: rest)
            = c :: reSubFuel findGtWsLt fuel rest := by
          simp [reSubFuel, hf]
        rw [hout]
        cases hc : pySpace c with
        | false =>
          rw [wsCount_cons_of_not_space hc, List.drop_zero]
          intro hhd
          apply h
          rw [wsCount_cons_of_not_space hc, List.drop_zero]
          simpa using hhd
        | true =>
          rw [dropWs_cons_of_space hc]
          apply ih rest ch hlen
          intro hhd
          apply h
          rw [dropWs_cons_of_space hc]
          exact hhd
      | some val =>
        obtain ⟨n, r⟩ := val
        obtain ⟨rest', heq, _, hn, hr, _⟩ := findGtWsLt_some hf
        have hc : c = '>' := (List.cons.inj heq).1
        subst hr
        subst hc
        have hchgt : ch = '>' → False := by
          intro hch
          apply h
          rw [wsCount_cons_of_not_space pySpace_gt, List.drop_zero, hch]
          rfl
        have hout : reSubFuel findGtWsLt (fuel + 1) ('>' :: rest)
            = '>' :: '<' :: reSubFuel findGtWsLt fuel (rest.drop (n - 1)) := by
          simp [reSubFuel, hf, gtLt]
        rw [hout]
        rw [wsCount_cons_of_not_space pySpace_gt, List.drop_zero]
        intro hhd
        exact hchgt (Option.some.inj hhd).symm

theorem hasMatch_drop_aux {f : Str → Option (Nat × Str)} :
    ∀ (k : Nat) (s : Str), hasMatch f s = false → hasMatch f (s.drop k) = false := by
  intro k
  induction k with
  | zero =>
    intro s h
    rw [List.drop_zero]
    exact h
  | succ k ih =>
    intro s h
    cases s with
    | nil => rfl
    | cons c rest =>
      rw [List.drop_succ_cons]
      apply ih
      simp only [hasMatch, Bool.or_eq_false_iff] at h
      exact h.2

/-- The scan of line 155 preserves the absence of `\s+>` matches. -/
theorem cleanGtWsLt_preserves_noWsGt :
    ∀ fuel s, s.length ≤ fuel →
      hasMatch findWsGt s = false →
      hasMatch findWsGt (reSubFuel findGtWsLt fuel s) = false := by
  intro fuel
  induction fuel with
  | zero =>
    intro s _ h
    exact h
  | succ fuel ih =>
    intro s hs h
    cases s with
    | nil => rfl
    | cons c rest =>
      have hlen : rest.length ≤ fuel := by
        simp only [List.length_cons] at hs; omega
      have hsplit : findWsGt (c :: rest) = none ∧ hasMatch findWsGt rest = false := by
        have h' := h
        simp only [hasMatch, Bool.or_eq_false_iff] at h'
        exact ⟨Option.not_isSome_iff_eq_none.mp (by simp [h'.1]), h'.2⟩
      cases hf : findGtWsLt (c :: rest) with
      | none =>
        have hout : reSubFuel findGtWsLt (fuel + 1) (c :: rest)
            = c :: reSubFuel findGtWsLt fuel rest := by
          simp [reSubFuel, hf]
        rw [hout]
        have hfront : findWsGt (c :: reSubFuel findGtWsLt fuel rest) = none := by
          cases hc : pySpace c with
          | false =>
            exact findWsGt_eq_none_of_wsZero (wsCount_cons_of_not_space hc _)
          | true =>
            apply findWsGt_eq_none_of_head
            rw [dropWs_cons_of_space hc]
            apply cleanGtWsLt_headAfter_aux fuel rest '>' hlen
            intro hhd
            apply findWsGt_none_head hsplit.1
              (by rw [wsCount_cons_of_space hc]; omega)
            rw [dropWs_cons_of_space hc]
            exact hhd
        simp [hasMatch, hfront, ih rest hlen hsplit.2]
      | some val =>
        obtain ⟨n, r⟩ := val
        obtain ⟨rest', heq, hw, hn, hr, _⟩ := findGtWsLt_some hf
        have hc : c = '>' := (List.cons.inj heq).1
        have hrest : rest = rest' := (List.cons.inj heq).2
        subst hr
        subst hc
        subst hrest
        subst hn
        have hout : reSubFuel findGtWsLt (fuel + 1) ('>' :: rest)
            = '>' :: '<' :: reSubFuel findGtWsLt fuel
                (rest.drop (wsCount rest + 1)) := by
          simp [reSubFuel, hf, gtLt]
        rw [hout]
        have hlend : (rest.drop (wsCount rest + 1)).length ≤ fuel := by
          rw [List.length_drop]
          simp only [List.length_cons] at hs
          omega
        have hrec := ih _ hlend (hasMatch_drop_aux (wsCount rest + 1) rest hsplit.2)
        have hf1 : findWsGt ('>' :: '<' :: reSubFuel findGtWsLt fuel
            (rest.drop (wsCount rest + 1))) = none :=
          findWsGt_eq_none_of_wsZero (wsCount_cons_of_not_space pySpace_gt _)
        have hf2 : findWsGt ('<' :: reSubFuel findGtWsLt fuel
            (rest.drop (wsCount rest + 1))) = none :=
          findWsGt_eq_none_of_wsZero (wsCount_cons_of_not_space pySpace_lt _)
        simp [hasMatch, hf1, hf2, hrec]

/-- After the pass of line 155 no position of the output matches
`>\s+<` any more. -/
theorem cleanGtWsLt_aux :
    ∀ fuel s, s.length ≤ fuel →
      hasMatch findGtWsLt (reSubFuel findGtWsLt fuel s) = false := by
  intro fuel
  induction fuel with
  | zero =>
    intro s hs
    have hnil : s = [] := List.eq_nil_of_length_eq_zero (Nat.le_zero.mp hs)
    subst hnil
    rfl
  | succ fuel ih =>
    intro s hs
    cases s with
    | nil => rfl
    | cons c rest =>
      have hlen : rest.length ≤ fuel := by
        simp only [List.length_cons] at hs; omega
      cases hf : findGtWsLt (c :: rest) with
      | none =>
        have hout : reSubFuel findGtWsLt (fuel + 1) (c :: rest)
            = c :: reSubFuel findGtWsLt fuel rest := by
          simp [reSubFuel, hf]
        rw [hout]
        have hfront : findGtWsLt (c :: reSubFuel findGtWsLt fuel rest) = none := by
          by_cases hc : c = '>'
          · subst hc
            rcases findGtWsLt_gt_none hf with h0 | hh
            · exact findGtWsLt_gt_eq_none_of_wsZero
                (cleanGtWsLt_wsZero fuel rest h0)
            · exact findGtWsLt_gt_eq_none_of_head
                (cleanGtWsLt_headAfter_aux fuel rest '<' hlen hh)
          · exact findGtWsLt_eq_none_of_not_gt (fun h => hc h) _
        simp [hasMatch, hfront, ih rest hlen]
      | some val =>
        obtain ⟨n, r⟩ := val
        obtain ⟨rest', heq, hw, hn, hr, _⟩ := findGtWsLt_some hf
        have hc : c = '>' := (List.cons.inj heq).1
        have hrest : rest = rest' := (List.cons.inj heq).2
        subst hr
        subst hc
        subst hrest
        subst hn
        have hout : reSubFuel findGtWsLt (fuel + 1) ('>' :: rest)
            = '>' :: '<' :: reSubFuel findGtWsLt fuel
                (rest.drop (wsCount rest + 1)) := by
          simp [reSubFuel, hf, gtLt]
        rw [hout]
        have hlend : (rest.drop (wsCount rest + 1)).length ≤ fuel := by
          rw [List.length_drop]
          simp only [List.length_cons] at hs
          omega
        have hf1 : findGtWsLt ('>' :: '<' :: reSubFuel findGtWsLt fuel
            (rest.drop (wsCount rest + 1))) = none :=
          findGtWsLt_gt_eq_none_of_wsZero (wsCount_cons_of_not_space pySpace_lt _)
        have hf2 : findGtWsLt ('<' :: reSubFuel findGtWsLt fuel
            (rest.drop (wsCount rest + 1))) = none :=
          findGtWsLt_eq_none_of_not_gt (fun h => absurd h (by decide)) _
        simp [hasMatch, hf1, hf2, ih _ hlend]

/-- Claim C10: after the two cleanup substitutions of lines 154–155,
which run last, the output of the full transformation contains no
whitespace run immediately preceding a `>` (the `\s+>` pattern, which
in particular covers whitespace before a closing angle bracket inside a
tag) and no whitespace-only run between a `>` and the next `<` (the
`>\s+<` pattern): all such whitespace is deleted. -/
theorem claim10_whitespace_cleanup :
    ∀ s : Str, hasMatch findWsGt (convertContent s) = false ∧
      hasMatch findGtWsLt (convertContent s) = false := by
  intro s
  unfold convertContent cleanGtWsLt cleanWsGt reSub
  constructor
  · exact cleanGtWsLt_preserves_noWsGt _ _ le_rfl (cleanWsGt_aux _ _ le_rfl)
  · exact cleanGtWsLt_aux _ _ le_rfl

/-- Claim C8, failing run: a self-closing `TextRegion` is treated like
an open tag by the regex of line 133, and the placeholder `Coords` is
appended after it as a *sibling*; the `TextRegion` itself survives
self-closing — hence childless — in the output, instead of becoming a
`TextRegion` with one `Coords` child. -/
theorem claim8_self_closing_textregion_gets_sibling_coords :
    convertContent inSelfClosingRegion = outSelfClosingRegion ∧
    containsSub inSelfClosingRegion (convertContent inSelfClosingRegion) = true := by
  constructor <;> decide

end PageXml
